import Mathlib

/-!
Shallow embedding of the core of the sber-hack blockchain layer:
the result cache (src/services/blockchain/cache.ts), the chain adapter
registry (networks registry module) and the connection manager
(src/services/blockchain/provider.ts), together with theorems checking
the specification claims against these embeddings.

Conventions: JS numbers holding timestamps, chain ids and sizes are
modelled as Nat; Infinity as the none case of an Option Nat; JS Maps as
insertion-ordered association lists; fallible JS code as Except values.
-/

namespace SberHack

/-- Supported blockchain networks (enum BlockchainNetwork in types.ts). -/
inductive Network where
  | ethereumMainnet
  | ethereumSepolia
  | polygonNet
  | bscNet
  | arbitrumNet
deriving DecidableEq, Repr

/-- String value of the corresponding BlockchainNetwork enum member. -/
def networkStr : Network → String
  | .ethereumMainnet => "ethereum_mainnet"
  | .ethereumSepolia => "ethereum_sepolia"
  | .polygonNet => "polygon"
  | .bscNet => "bsc"
  | .arbitrumNet => "arbitrum"

/-- Lookup in an insertion-ordered association list (JS Map.get). -/
def mapGet [DecidableEq κ] (k : κ) (l : List (κ × β)) : Option β :=
  (l.find? (fun p => decide (p.1 = k))).map Prod.snd

/-- JS Map.set: replace the entry in place if the key is present, else append. -/
def mapSet [DecidableEq κ] (k : κ) (v : β) : List (κ × β) → List (κ × β)
  | [] => [(k, v)]
  | p :: rest => if p.1 = k then (k, v) :: rest else p :: mapSet k v rest

/-- JS Map.delete on a map with unique keys. -/
def mapDelete [DecidableEq κ] (k : κ) (l : List (κ × β)) : List (κ × β) :=
  l.filter (fun p => decide (p.1 ≠ k))

theorem mapGet_mapSet_self [DecidableEq κ] (k : κ) (v : β) (l : List (κ × β)) :
    mapGet k (mapSet k v l) = some v := by
  induction l with
  | nil => simp [mapGet, mapSet]
  | cons p rest ih =>
      by_cases h : p.1 = k
      · simp [mapGet, mapSet, h]
      · simpa [mapGet, mapSet, h] using ih

theorem mapGet_mapSet_ne [DecidableEq κ] {k k' : κ} (hne : k' ≠ k) (v : β)
    (l : List (κ × β)) : mapGet k' (mapSet k v l) = mapGet k' l := by
  have hkk' : ¬ k = k' := fun h => hne h.symm
  induction l with
  | nil => simp [mapGet, mapSet, hkk']
  | cons p rest ih =>
      by_cases h : p.1 = k
      · have h1 : ¬ p.1 = k' := by rw [h]; exact hkk'
        simp only [mapSet, if_pos h]
        unfold mapGet
        rw [List.find?_cons_of_neg _ (by simp [hkk']),
          List.find?_cons_of_neg _ (by simp [h1])]
      · simp only [mapSet, if_neg h]
        by_cases h' : p.1 = k'
        · unfold mapGet
          rw [List.find?_cons_of_pos _ (by simp [h']),
            List.find?_cons_of_pos _ (by simp [h'])]
        · unfold mapGet
          rw [List.find?_cons_of_neg _ (by simp [h']),
            List.find?_cons_of_neg _ (by simp [h'])]
          exact ih

theorem mapSet_of_get_none [DecidableEq κ] {k : κ} {l : List (κ × β)}
    (h : mapGet k l = none) (v : β) : mapSet k v l = l ++ [(k, v)] := by
  induction l with
  | nil => simp [mapSet]
  | cons p rest ih =>
      by_cases hp : p.1 = k
      · exfalso
        simp [mapGet, hp] at h
      · simp only [mapGet, List.find?_cons_of_neg, decide_eq_true_eq, hp,
          not_false_iff] at h
        simp [mapSet, hp, ih h]

theorem mapGet_mapDelete_self [DecidableEq κ] (k : κ) (l : List (κ × β)) :
    mapGet k (mapDelete k l) = none := by
  unfold mapGet mapDelete
  have hnone : List.find? (fun p => decide (p.1 = k))
      (List.filter (fun p => decide (p.1 ≠ k)) l) = none := by
    rw [List.find?_eq_none]
    intro x hx
    have hmem := List.of_mem_filter hx
    simp only [decide_eq_true_eq] at hmem ⊢
    exact hmem
  rw [hnone]
  rfl

theorem mapGet_mapDelete_ne [DecidableEq κ] {j k : κ} (hne : k ≠ j)
    (l : List (κ × β)) : mapGet k (mapDelete j l) = mapGet k l := by
  induction l with
  | nil => rfl
  | cons p rest ih =>
      by_cases hp : p.1 = j
      · have hpk : ¬ p.1 = k := by rw [hp]; exact fun h => hne h.symm
        have hstep : mapDelete j (p :: rest) = mapDelete j rest := by
          simp [mapDelete, hp]
        rw [hstep, ih]
        unfold mapGet
        rw [List.find?_cons_of_neg _ (by simp [hpk])]
      · have hstep : mapDelete j (p :: rest) = p :: mapDelete j rest := by
          simp [mapDelete, hp]
        rw [hstep]
        by_cases hk : p.1 = k
        · unfold mapGet
          rw [List.find?_cons_of_pos _ (by simp [hk]),
            List.find?_cons_of_pos _ (by simp [hk])]
        · unfold mapGet
          rw [List.find?_cons_of_neg _ (by simp [hk]),
            List.find?_cons_of_neg _ (by simp [hk])]
          exact ih

theorem mapGet_append [DecidableEq κ] (k : κ) (l1 l2 : List (κ × β)) :
    mapGet k (l1 ++ l2) = (mapGet k l1).or (mapGet k l2) := by
  simp only [mapGet, List.find?_append]
  cases l1.find? (fun p => decide (p.1 = k)) <;> rfl

theorem mapGet_none_mapDelete [DecidableEq κ] {k : κ} {l : List (κ × β)}
    (h : mapGet k l = none) (j : κ) : mapGet k (mapDelete j l) = none := by
  unfold mapGet at h ⊢
  have hf : List.find? (fun p => decide (p.1 = k)) l = none := by
    cases hfind : List.find? (fun p => decide (p.1 = k)) l with
    | none => rfl
    | some x => rw [hfind] at h; simp at h
  rw [List.find?_eq_none] at hf
  have hnone : List.find? (fun p => decide (p.1 = k)) (mapDelete j l) = none := by
    rw [List.find?_eq_none]
    intro x hx
    exact hf x (List.mem_of_mem_filter hx)
  rw [hnone]
  rfl

theorem mapDelete_length [DecidableEq κ] {j : κ} {l : List (κ × β)}
    (hnd : (l.map Prod.fst).Nodup) (hmem : j ∈ l.map Prod.fst) :
    (mapDelete j l).length = l.length - 1 := by
  induction l with
  | nil => simp at hmem
  | cons p rest ih =>
      simp only [List.map_cons, List.nodup_cons] at hnd
      by_cases hp : p.1 = j
      · have hrest : mapDelete j rest = rest := by
          apply List.filter_eq_self.mpr
          intro q hq
          simp only [decide_eq_true_eq]
          intro hqj
          apply hnd.1
          rw [hp, ← hqj]
          exact List.mem_map_of_mem Prod.fst hq
        have hstep : mapDelete j (p :: rest) = mapDelete j rest := by
          simp [mapDelete, hp]
        rw [hstep, hrest]
        simp
      · have hmem' : j ∈ rest.map Prod.fst := by
          rcases List.mem_cons.mp hmem with h | h
          · exact absurd h.symm hp
          · exact h
        have hstep : mapDelete j (p :: rest) = p :: mapDelete j rest := by
          simp [mapDelete, hp]
        rw [hstep]
        have hlen := ih hnd.2 hmem'
        have hpos : 1 ≤ rest.length := by
          cases rest with
          | nil => simp at hmem'
          | cons a t => simp
        simp only [List.length_cons, hlen]
        omega

/-- Cache entry (interface CacheEntry in cache.ts); the none case of
    expiresAt models the Infinity expiry computed for a falsy ttl. -/
structure CacheEntry (α : Type) where
  value : α
  timestamp : Nat
  expiresAt : Option Nat
deriving DecidableEq, Repr

/-- Caller-supplied cache options (Partial CacheOptions); none models an absent field. -/
structure CacheOptions where
  ttl : Option Nat := none
  blockBased : Option Bool := none
  persistToLocalStorage : Option Bool := none
  maxSize : Option Nat := none
deriving DecidableEq, Repr

/-- State of BlockchainCacheService: the in-memory map, the localStorage
    mirror (under prefixed keys) and the hit/miss/eviction counters. -/
structure CacheState (α : Type) where
  entries : List (String × CacheEntry α)
  storage : List (String × CacheEntry α)
  hits : Nat
  misses : Nat
  evictions : Nat
deriving DecidableEq, Repr

def emptyCache : CacheState α :=
  { entries := [], storage := [], hits := 0, misses := 0, evictions := 0 }

/-- localStorage key namespace of the cache service (storagePrefix field). -/
def storagePfx : String := "sh1fr_blockchain_cache_"

/-- Default ttl of the service (5 minutes in milliseconds). -/
def defaultTtl : Nat := 5 * 60 * 1000

/-- Default maxSize of the service. -/
def defaultMaxSize : Nat := 100

/-- Scan step of evictOldest: the current entry is older when its timestamp is
    strictly below the best so far; the none case models oldestTimestamp = Infinity. -/
def oldBetter (best : Option (String × Nat)) (t : Nat) : Bool :=
  match best with
  | none => true
  | some q => t < q.2

def findOldestAux (best : Option (String × Nat)) :
    List (String × CacheEntry α) → Option (String × Nat)
  | [] => best
  | p :: rest =>
      findOldestAux (if oldBetter best p.2.timestamp then some (p.1, p.2.timestamp) else best) rest

/-- Loop of evictOldest in cache.ts: the first entry carrying the strictly
    minimal insertion timestamp, with its timestamp. -/
def findOldest (l : List (String × CacheEntry α)) : Option (String × Nat) :=
  findOldestAux none l

/-- evictOldest of BlockchainCacheService. The deletion is guarded by the JS
    truthiness test on oldestKey, which skips it both when the cache is empty
    (oldestKey still null) and when the oldest entry is keyed by the empty
    string (an empty string is falsy). -/
def evictOldest (s : CacheState α) : CacheState α :=
  match findOldest s.entries with
  | none => s
  | some q =>
      if q.1 ≠ "" then
        { s with entries := mapDelete q.1 s.entries,
                 storage := mapDelete (storagePfx ++ q.1) s.storage,
                 evictions := s.evictions + 1 }
      else s

/-- Effective capacity bound: mergedOptions.maxSize or the default when the
    merged value is 0, mirroring the falsy JS check maxSize or default. -/
def effMaxSize (m : Nat) : Nat := if m ≠ 0 then m else defaultMaxSize

/-- set(key, value, options) of BlockchainCacheService, at clock value now.
    The merged ttl is tested for truthiness, so a zero ttl yields an
    unbounded expiry; eviction runs before insertion when at capacity;
    persistence mirrors the entry into storage under the prefixed key. -/
def cacheSet (k : String) (v : α) (opts : CacheOptions) (now : Nat)
    (s : CacheState α) : CacheState α :=
  let mergedTtl := opts.ttl.getD defaultTtl
  let mergedMaxSize := opts.maxSize.getD defaultMaxSize
  let mergedPersist := opts.persistToLocalStorage.getD true
  let entry : CacheEntry α :=
    { value := v, timestamp := now,
      expiresAt := if mergedTtl ≠ 0 then some (now + mergedTtl) else none }
  let s1 := if s.entries.length ≥ effMaxSize mergedMaxSize then evictOldest s else s
  let s2 := { s1 with entries := mapSet k entry s1.entries }
  if mergedPersist then { s2 with storage := mapSet (storagePfx ++ k) entry s2.storage }
  else s2

/-- Expiry test entry.expiresAt lt now, with none standing for Infinity. -/
def expiredAt (e : Option Nat) (now : Nat) : Bool :=
  match e with
  | none => false
  | some t => t < now

/-- get(key) of BlockchainCacheService at clock value now: the returned value
    and the successor state (counter updates and expiry deletion included). -/
def cacheGet (k : String) (now : Nat) (s : CacheState α) : Option α × CacheState α :=
  match mapGet k s.entries with
  | none => (none, { s with misses := s.misses + 1 })
  | some e =>
      if expiredAt e.expiresAt now then
        (none, { s with entries := mapDelete k s.entries,
                        storage := mapDelete (storagePfx ++ k) s.storage,
                        misses := s.misses + 1 })
      else (some e.value, { s with hits := s.hits + 1 })

/-- getStats of BlockchainCacheService: size, hits, misses, evictions. -/
def cacheGetStats (s : CacheState α) : Nat × Nat × Nat × Nat :=
  (s.entries.length, s.hits, s.misses, s.evictions)

/-- Character-wise lowercase, modelling the toLowerCase call of the source. -/
def lowerStr (s : String) : String := String.mk (s.data.map Char.toLower)

/-- Key descriptor (interface KeyOptions in cache.ts). The additionalParams
    field is the entry list of the JS object in insertion order, with the
    values already stringified. -/
structure KeyOptions where
  prefixStr : String
  address : Option String := none
  chainId : Option Nat := none
  blockNumber : Option Nat := none
  network : Option Network := none
  additionalParams : Option (List (String × String)) := none
deriving DecidableEq, Repr

/-- Indexing additionalParams at a key: value of the first entry with that key. -/
def lookupParam (ps : List (String × String)) (k : String) : String :=
  ((ps.find? (fun p => decide (p.1 = k))).map Prod.snd).getD ""

/-- Object.keys of additionalParams, sorted. -/
def sortedParamKeys (ps : List (String × String)) : List String :=
  List.insertionSort (fun a b => a ≤ b) (ps.map Prod.fst)

/-- generateKey of BlockchainCacheService. JS truthiness applies to each
    optional component: an empty address string, a zero chainId and a zero
    blockNumber are falsy and therefore skipped. -/
def generateKey (o : KeyOptions) : String :=
  let key := o.prefixStr ++ ":"
  let key := match o.address with
    | some a => if a ≠ "" then key ++ "addr:" ++ lowerStr a ++ ":" else key
    | none => key
  let key := match o.chainId with
    | some c => if c ≠ 0 then key ++ "chain:" ++ toString c ++ ":" else key
    | none => key
  let key := match o.blockNumber with
    | some b => if b ≠ 0 then key ++ "block:" ++ toString b ++ ":" else key
    | none => key
  let key := match o.network with
    | some n => key ++ "net:" ++ networkStr n ++ ":"
    | none => key
  match o.additionalParams with
  | some ps =>
      (sortedParamKeys ps).foldl (fun acc pk => acc ++ pk ++ ":" ++ lookupParam ps pk ++ ":") key
  | none => key

/-- C1 counterexample: storing under a zero ttl and reading much later yields
    the stored value, not the miss the claim requires, because the merged
    ttl of 0 is falsy and produces an unbounded expiry. -/
theorem c1_counterexample :
    ¬ ((cacheGet "k" 1000000000
        (cacheSet "k" (42 : Nat) { ttl := some 0 } 100 emptyCache)).1 = none) ∧
    (cacheGet "k" 1000000000
        (cacheSet "k" (42 : Nat) { ttl := some 0 } 100 emptyCache)).1 = some 42 := by
  constructor
  · decide
  · decide

/-- C1 amended: an entry stored with a zero ttl never expires (a zero ttl is
    treated like an absent one and yields an unbounded expiry), so a later
    get at any clock value returns the stored value. -/
theorem c1_zero_ttl_never_expires (s : CacheState α) (k : String) (v : α)
    (now later : Nat) :
    (cacheGet k later (cacheSet k v { ttl := some 0 } now s)).1 = some v := by
  simp [cacheSet, cacheGet, mapGet_mapSet_self, expiredAt]

/-- C10: generateKey omits every falsy component, so a descriptor with a zero
    chainId, a zero blockNumber or an empty address produces the same key as
    one with the field absent, and distinct descriptors can collide. -/
theorem c10_falsy_components_omitted :
    (∀ o : KeyOptions, generateKey { o with chainId := some 0 } =
        generateKey { o with chainId := none })
  ∧ (∀ o : KeyOptions, generateKey { o with blockNumber := some 0 } =
        generateKey { o with blockNumber := none })
  ∧ (∀ o : KeyOptions, generateKey { o with address := some "" } =
        generateKey { o with address := none })
  ∧ (∃ o1 o2 : KeyOptions, o1 ≠ o2 ∧ generateKey o1 = generateKey o2) := by
  refine ⟨fun o => rfl, fun o => rfl, fun o => rfl, ?_⟩
  exact ⟨{ prefixStr := "p", chainId := some 0 }, { prefixStr := "p" }, by decide, rfl⟩

theorem mapGet_isSome_of_mem [DecidableEq κ] {j : κ} {e : β} {l : List (κ × β)}
    (h : (j, e) ∈ l) : mapGet j l ≠ none := by
  intro hnone
  unfold mapGet at hnone
  have hf : List.find? (fun p => decide (p.1 = j)) l = none := by
    cases hfind : List.find? (fun p => decide (p.1 = j)) l with
    | none => rfl
    | some x => rw [hfind] at hnone; simp at hnone
  rw [List.find?_eq_none] at hf
  exact hf (j, e) h (by simp)

theorem findOldestAux_spec (l : List (String × CacheEntry α)) :
    ∀ (best : Option (String × Nat)) (q : String × Nat),
      findOldestAux best l = some q →
      (∀ p ∈ l, q.2 ≤ p.2.timestamp)
      ∧ (best = some q ∨ ∃ e, (q.1, e) ∈ l ∧ e.timestamp = q.2)
      ∧ (∀ b, best = some b → q.2 ≤ b.2) := by
  induction l with
  | nil =>
      intro best q h
      simp only [findOldestAux] at h
      subst h
      refine ⟨by simp, Or.inl rfl, ?_⟩
      intro b hb
      cases hb
      exact le_refl _
  | cons p rest ih =>
      intro best q h
      simp only [findOldestAux] at h
      by_cases hob : oldBetter best p.2.timestamp = true
      · rw [if_pos hob] at h
        obtain ⟨hmin, hsrc, hle⟩ := ih (some (p.1, p.2.timestamp)) q h
        have hqp : q.2 ≤ p.2.timestamp := hle (p.1, p.2.timestamp) rfl
        refine ⟨?_, ?_, ?_⟩
        · intro x hx
          rcases List.mem_cons.mp hx with rfl | hx'
          · exact hqp
          · exact hmin x hx'
        · rcases hsrc with hb | ⟨e, he, het⟩
          · have hq : q = (p.1, p.2.timestamp) := by injection hb with h1; exact h1.symm
            refine Or.inr ⟨p.2, ?_, ?_⟩
            · rw [hq]
              exact List.mem_cons_self p rest
            · rw [hq]
          · exact Or.inr ⟨e, List.mem_cons_of_mem p he, het⟩
        · intro b hb
          have hlt : p.2.timestamp < b.2 := by
            rw [hb] at hob
            simpa [oldBetter] using hob
          exact le_trans hqp (le_of_lt hlt)
      · rw [if_neg hob] at h
        obtain ⟨hmin, hsrc, hle⟩ := ih best q h
        refine ⟨?_, ?_, hle⟩
        · intro x hx
          rcases List.mem_cons.mp hx with rfl | hx'
          · cases hbest : best with
            | none => rw [hbest] at hob; simp [oldBetter] at hob
            | some b0 =>
                have h1 : q.2 ≤ b0.2 := hle b0 hbest
                have h2 : b0.2 ≤ x.2.timestamp := by
                  rw [hbest] at hob
                  simp only [oldBetter, decide_eq_true_eq] at hob
                  omega
                exact le_trans h1 h2
          · exact hmin x hx'
        · rcases hsrc with hb | ⟨e, he, het⟩
          · exact Or.inl hb
          · exact Or.inr ⟨e, List.mem_cons_of_mem p he, het⟩

theorem findOldest_some_of_ne_nil {l : List (String × CacheEntry α)} (h : l ≠ []) :
    ∃ q, findOldest l = some q := by
  have haux : ∀ (t : List (String × CacheEntry α)) (b : String × Nat),
      ∃ q, findOldestAux (some b) t = some q := by
    intro t
    induction t with
    | nil => intro b; exact ⟨b, rfl⟩
    | cons x xs ih =>
        intro b
        simp only [findOldestAux]
        by_cases hob : oldBetter (some b) x.2.timestamp = true
        · rw [if_pos hob]
          exact ih (x.1, x.2.timestamp)
        · rw [if_neg hob]
          exact ih b
  cases l with
  | nil => exact absurd rfl h
  | cons p rest =>
      simp only [findOldest, findOldestAux]
      rw [if_pos (show oldBetter none p.2.timestamp = true from rfl)]
      exact haux rest (p.1, p.2.timestamp)

theorem cacheSet_entries_evictions (k : String) (v : α) (opts : CacheOptions)
    (now : Nat) (s : CacheState α) :
    (cacheSet k v opts now s).entries =
        mapSet k
          { value := v, timestamp := now,
            expiresAt := if opts.ttl.getD defaultTtl ≠ 0
              then some (now + opts.ttl.getD defaultTtl) else none }
          ((if s.entries.length ≥ effMaxSize (opts.maxSize.getD defaultMaxSize)
              then evictOldest s else s).entries)
    ∧ (cacheSet k v opts now s).evictions =
        (if s.entries.length ≥ effMaxSize (opts.maxSize.getD defaultMaxSize)
            then evictOldest s else s).evictions := by
  simp only [cacheSet]
  by_cases hp : opts.persistToLocalStorage.getD true = true
  · simp [hp]
  · simp [hp]

/-- C5 (amended): a set of a fresh key on a cache whose size equals the
    configured maxSize N evicts exactly one entry, one carrying the minimal
    insertion timestamp, and leaves the cache at size N with the new entry
    present and every other entry untouched — provided no entry is keyed by
    the empty string, since the truthiness guard on oldestKey skips the
    eviction when the oldest entry carries the empty-string key. -/
theorem c5_eviction_at_capacity (s : CacheState α) (k : String) (v : α)
    (opts : CacheOptions) (now N : Nat)
    (hmax : opts.maxSize = some N) (hN : N ≠ 0)
    (hsize : s.entries.length = N)
    (hfresh : mapGet k s.entries = none)
    (hnd : (s.entries.map Prod.fst).Nodup)
    (hkeys : "" ∉ s.entries.map Prod.fst) :
    ∃ j tmin, findOldest s.entries = some (j, tmin)
      ∧ j ∈ s.entries.map Prod.fst
      ∧ (∀ p ∈ s.entries, tmin ≤ p.2.timestamp)
      ∧ (cacheSet k v opts now s).entries.length = N
      ∧ (∃ e, mapGet k (cacheSet k v opts now s).entries = some e
          ∧ e.value = v ∧ e.timestamp = now)
      ∧ mapGet j (cacheSet k v opts now s).entries = none
      ∧ (∀ k', k' ≠ j → k' ≠ k →
          mapGet k' (cacheSet k v opts now s).entries = mapGet k' s.entries)
      ∧ (cacheSet k v opts now s).evictions = s.evictions + 1 := by
  have hne : s.entries ≠ [] := by
    intro h0
    rw [h0] at hsize
    exact hN (by simpa using hsize.symm)
  obtain ⟨q, hq⟩ := findOldest_some_of_ne_nil hne
  obtain ⟨hmin, hsrc, _⟩ := findOldestAux_spec s.entries none q hq
  rcases hsrc with hb | ⟨e0, he0, _⟩
  · exact absurd hb (by simp)
  have hjmem : q.1 ∈ s.entries.map Prod.fst := List.mem_map_of_mem Prod.fst he0
  have hjk : q.1 ≠ k := by
    intro heq
    exact mapGet_isSome_of_mem (heq ▸ he0) hfresh
  have hcond : s.entries.length ≥ effMaxSize (opts.maxSize.getD defaultMaxSize) := by
    rw [hmax]
    simp only [Option.getD_some, effMaxSize, if_pos hN]
    omega
  have hq1 : q.1 ≠ "" := fun h => hkeys (h ▸ hjmem)
  have heve : (evictOldest s).entries = mapDelete q.1 s.entries := by
    unfold evictOldest
    rw [hq]
    dsimp only
    rw [if_pos hq1]
  have hevv : (evictOldest s).evictions = s.evictions + 1 := by
    unfold evictOldest
    rw [hq]
    dsimp only
    rw [if_pos hq1]
  obtain ⟨hent, hevic⟩ := cacheSet_entries_evictions k v opts now s
  rw [if_pos hcond] at hent hevic
  rw [heve] at hent
  rw [hevv] at hevic
  have hfreshdel : mapGet k (mapDelete q.1 s.entries) = none :=
    mapGet_none_mapDelete hfresh q.1
  have happ : (cacheSet k v opts now s).entries =
      mapDelete q.1 s.entries ++
        [(k, { value := v, timestamp := now,
               expiresAt := if opts.ttl.getD defaultTtl ≠ 0
                 then some (now + opts.ttl.getD defaultTtl) else none })] := by
    rw [hent, mapSet_of_get_none hfreshdel]
  refine ⟨q.1, q.2, by simpa using hq, hjmem, hmin, ?_, ?_, ?_, ?_, hevic⟩
  · rw [happ, List.length_append, mapDelete_length hnd hjmem, hsize]
    simp
    omega
  · exact ⟨{ value := v, timestamp := now,
             expiresAt := if opts.ttl.getD defaultTtl ≠ 0
               then some (now + opts.ttl.getD defaultTtl) else none },
           by rw [hent]; exact mapGet_mapSet_self k _ _, rfl, rfl⟩
  · rw [happ, mapGet_append, mapGet_mapDelete_self]
    have h2 : mapGet q.1
        [(k, ({ value := v, timestamp := now,
                expiresAt := if opts.ttl.getD defaultTtl ≠ 0
                  then some (now + opts.ttl.getD defaultTtl) else none } : CacheEntry α))]
          = none := by
      have hkq : ¬ k = q.1 := fun h => hjk h.symm
      simp [mapGet, hkq]
    rw [h2]
    rfl
  · intro k' hk'j hk'k
    rw [happ, mapGet_append]
    have h2 : mapGet k'
        [(k, ({ value := v, timestamp := now,
                expiresAt := if opts.ttl.getD defaultTtl ≠ 0
                  then some (now + opts.ttl.getD defaultTtl) else none } : CacheEntry α))]
          = none := by
      have hkk' : ¬ k = k' := fun h => hk'k h.symm
      simp [mapGet, hkk']
    rw [h2, mapGet_mapDelete_ne hk'j, Option.or_none]

/-- Concrete two-entry cache at capacity two, for the C5 witness. -/
def c5demo : CacheState Nat :=
  { entries := [("a", { value := 1, timestamp := 10, expiresAt := some 999999 }),
                ("b", { value := 2, timestamp := 5, expiresAt := some 999999 })],
    storage := [], hits := 0, misses := 0, evictions := 0 }

/-- Witness for C5 at a concrete input: capacity 2, entries a and b present,
    entry b oldest, inserting c. -/
theorem c5_witness :
    ∃ j tmin, findOldest c5demo.entries = some (j, tmin)
      ∧ j ∈ c5demo.entries.map Prod.fst
      ∧ (∀ p ∈ c5demo.entries, tmin ≤ p.2.timestamp)
      ∧ (cacheSet "c" (3 : Nat) { maxSize := some 2 } 20 c5demo).entries.length = 2
      ∧ (∃ e, mapGet "c" (cacheSet "c" (3 : Nat) { maxSize := some 2 } 20 c5demo).entries = some e
          ∧ e.value = 3 ∧ e.timestamp = 20)
      ∧ mapGet j (cacheSet "c" (3 : Nat) { maxSize := some 2 } 20 c5demo).entries = none
      ∧ (∀ k', k' ≠ j → k' ≠ "c" →
          mapGet k' (cacheSet "c" (3 : Nat) { maxSize := some 2 } 20 c5demo).entries =
            mapGet k' c5demo.entries)
      ∧ (cacheSet "c" (3 : Nat) { maxSize := some 2 } 20 c5demo).evictions =
          c5demo.evictions + 1 :=
  c5_eviction_at_capacity c5demo "c" 3 { maxSize := some 2 } 20 2 rfl
    (by decide) (by decide) (by decide) (by decide) (by decide)

/-- Cache at capacity two whose oldest entry is keyed by the empty string,
    for the C5 counterexample. -/
def c5edge : CacheState Nat :=
  { entries := [("", { value := 1, timestamp := 5, expiresAt := some 999999 }),
                ("a", { value := 2, timestamp := 10, expiresAt := some 999999 })],
    storage := [], hits := 0, misses := 0, evictions := 0 }

/-- C5 counterexample: on a cache of size 2 with maxSize 2 whose oldest entry
    is keyed by the empty string, inserting the fresh key c evicts nothing:
    the truthiness guard on oldestKey rejects the empty string, so the cache
    grows to 3 entries, the eviction counter stays put and the oldest entry
    survives — the claimed eviction and final size N fail. -/
theorem c5_counterexample :
    (cacheSet "c" (3 : Nat) { maxSize := some 2 } 20 c5edge).entries.length = 3
  ∧ ¬ ((cacheSet "c" (3 : Nat) { maxSize := some 2 } 20 c5edge).entries.length = 2)
  ∧ (cacheSet "c" (3 : Nat) { maxSize := some 2 } 20 c5edge).evictions =
      c5edge.evictions
  ∧ ¬ (mapGet "" (cacheSet "c" (3 : Nat) { maxSize := some 2 } 20 c5edge).entries
        = none) := by
  refine ⟨?_, ?_, ?_, ?_⟩ <;> decide

/-- C6: get returns a present, unexpired value and counts a hit; a
    present-but-expired entry is removed from memory and durable storage and
    counted as a miss; an absent key is a miss; and every call bumps exactly
    one of the hit or miss counters reported by getStats. -/
theorem c6_get_semantics (s : CacheState α) (k : String) (now : Nat) :
    (((cacheGetStats (cacheGet k now s).2).2.1 = s.hits + 1 ∧
      (cacheGetStats (cacheGet k now s).2).2.2.1 = s.misses) ∨
     ((cacheGetStats (cacheGet k now s).2).2.1 = s.hits ∧
      (cacheGetStats (cacheGet k now s).2).2.2.1 = s.misses + 1))
  ∧ (∀ e, mapGet k s.entries = some e → expiredAt e.expiresAt now = false →
      (cacheGet k now s).1 = some e.value ∧
      (cacheGet k now s).2.entries = s.entries ∧
      (cacheGet k now s).2.storage = s.storage ∧
      (cacheGet k now s).2.hits = s.hits + 1)
  ∧ (∀ e, mapGet k s.entries = some e → expiredAt e.expiresAt now = true →
      (cacheGet k now s).1 = none ∧
      mapGet k (cacheGet k now s).2.entries = none ∧
      mapGet (storagePfx ++ k) (cacheGet k now s).2.storage = none ∧
      (cacheGet k now s).2.misses = s.misses + 1)
  ∧ (mapGet k s.entries = none →
      (cacheGet k now s).1 = none ∧ (cacheGet k now s).2.misses = s.misses + 1) := by
  cases hm : mapGet k s.entries with
  | none =>
      refine ⟨Or.inr ?_, ?_, ?_, ?_⟩
      · constructor <;> simp [cacheGet, cacheGetStats, hm]
      · intro e he _
        exact Option.noConfusion he
      · intro e he _
        exact Option.noConfusion he
      · intro _
        constructor <;> simp [cacheGet, hm]
  | some e =>
      by_cases hexp : expiredAt e.expiresAt now = true
      · refine ⟨Or.inr ?_, ?_, ?_, ?_⟩
        · constructor <;> simp [cacheGet, cacheGetStats, hm, hexp]
        · intro e' he' hne
          injection he' with h1
          rw [← h1, hexp] at hne
          exact Bool.noConfusion hne
        · intro e' he' _
          refine ⟨?_, ?_, ?_, ?_⟩ <;>
            simp [cacheGet, hm, hexp, mapGet_mapDelete_self]
        · intro hnone
          exact Option.noConfusion hnone
      · have hexp' : expiredAt e.expiresAt now = false := by
          cases hb : expiredAt e.expiresAt now
          · rfl
          · exact absurd hb hexp
        refine ⟨Or.inl ?_, ?_, ?_, ?_⟩
        · constructor <;> simp [cacheGet, cacheGetStats, hm, hexp']
        · intro e' he' _
          injection he' with h1
          subst h1
          refine ⟨?_, ?_, ?_, ?_⟩ <;> simp [cacheGet, hm, hexp']
        · intro e' he' htrue
          injection he' with h1
          rw [← h1, hexp'] at htrue
          exact Bool.noConfusion htrue
        · intro hnone
          exact Option.noConfusion hnone

/-- Concrete cache with one expired and one live entry, for the C6 witness. -/
def c6demo : CacheState Nat :=
  { entries := [("a", { value := 1, timestamp := 0, expiresAt := some 5 }),
                ("b", { value := 2, timestamp := 0, expiresAt := some 50 })],
    storage := [(storagePfx ++ "a", { value := 1, timestamp := 0, expiresAt := some 5 })],
    hits := 0, misses := 0, evictions := 0 }

/-- Witness for C6 at time 10: entry b is a hit, entry a is expired and gets
    removed from memory and storage, and key c is a plain miss. -/
theorem c6_witness :
    (cacheGet "b" 10 c6demo).1 = some 2 ∧
    (cacheGet "a" 10 c6demo).1 = none ∧
    mapGet "a" (cacheGet "a" 10 c6demo).2.entries = none ∧
    mapGet (storagePfx ++ "a") (cacheGet "a" 10 c6demo).2.storage = none ∧
    (cacheGet "c" 10 c6demo).2.misses = c6demo.misses + 1 := by
  refine ⟨?_, ?_, ?_, ?_, ?_⟩
  · exact ((c6_get_semantics c6demo "b" 10).2.1
      { value := 2, timestamp := 0, expiresAt := some 50 } (by decide) (by decide)).1
  · exact ((c6_get_semantics c6demo "a" 10).2.2.1
      { value := 1, timestamp := 0, expiresAt := some 5 } (by decide) (by decide)).1
  · exact ((c6_get_semantics c6demo "a" 10).2.2.1
      { value := 1, timestamp := 0, expiresAt := some 5 } (by decide) (by decide)).2.1
  · exact ((c6_get_semantics c6demo "a" 10).2.2.1
      { value := 1, timestamp := 0, expiresAt := some 5 } (by decide) (by decide)).2.2.1
  · exact ((c6_get_semantics c6demo "c" 10).2.2.2 (by decide)).2

theorem lowerStr_eq_empty_iff (a : String) : lowerStr a = "" ↔ a = "" := by
  cases a with
  | mk l =>
      constructor
      · intro h
        have hd : l.map Char.toLower = [] := congrArg String.data h
        have hl : l = [] := List.map_eq_nil_iff.mp hd
        rw [hl]
      · intro h
        rw [h]
        rfl

theorem sortedParamKeys_eq {p1 p2 : List (String × String)}
    (hperm : (p1.map Prod.fst).Perm (p2.map Prod.fst)) :
    sortedParamKeys p1 = sortedParamKeys p2 :=
  List.eq_of_perm_of_sorted
    (((List.perm_insertionSort (fun a b => a ≤ b) (p1.map Prod.fst)).trans hperm).trans
      (List.perm_insertionSort (fun a b => a ≤ b) (p2.map Prod.fst)).symm)
    (List.sorted_insertionSort (fun a b => a ≤ b) (p1.map Prod.fst))
    (List.sorted_insertionSort (fun a b => a ≤ b) (p2.map Prod.fst))

theorem foldl_lookup_congr (p1 p2 : List (String × String)) (l : List String)
    (h : ∀ k ∈ l, lookupParam p1 k = lookupParam p2 k) :
    ∀ acc : String,
      l.foldl (fun acc pk => acc ++ pk ++ ":" ++ lookupParam p1 pk ++ ":") acc =
      l.foldl (fun acc pk => acc ++ pk ++ ":" ++ lookupParam p2 pk ++ ":") acc := by
  induction l with
  | nil => intro acc; rfl
  | cons x xs ih =>
      intro acc
      simp only [List.foldl_cons]
      rw [h x (List.mem_cons_self x xs)]
      exact ih (fun k hk => h k (List.mem_cons_of_mem x hk)) _

theorem paramsSegment_congr {p1 p2 : List (String × String)}
    (hperm : (p1.map Prod.fst).Perm (p2.map Prod.fst))
    (hlook : ∀ k ∈ p1.map Prod.fst, lookupParam p1 k = lookupParam p2 k)
    (K : String) :
    (sortedParamKeys p1).foldl
        (fun acc pk => acc ++ pk ++ ":" ++ lookupParam p1 pk ++ ":") K =
    (sortedParamKeys p2).foldl
        (fun acc pk => acc ++ pk ++ ":" ++ lookupParam p2 pk ++ ":") K := by
  rw [sortedParamKeys_eq hperm]
  apply foldl_lookup_congr
  intro k hk
  apply hlook
  have hk1 : k ∈ sortedParamKeys p1 := by
    rw [sortedParamKeys_eq hperm]
    exact hk
  exact (List.perm_insertionSort (fun a b => a ≤ b) (p1.map Prod.fst)).mem_iff.mp hk1

/-- C7: generateKey is a pure deterministic function of the descriptor:
    descriptors agreeing on prefix, case-insensitively on address, on
    chainId, blockNumber and network, and whose additional-parameter maps
    are equal as maps (same keys up to order, same values per key), yield
    identical key strings. -/
theorem c7_generateKey_order_independent (o1 o2 : KeyOptions)
    (hpre : o1.prefixStr = o2.prefixStr)
    (haddr : match o1.address, o2.address with
      | none, none => True
      | some a1, some a2 => lowerStr a1 = lowerStr a2
      | _, _ => False)
    (hchain : o1.chainId = o2.chainId)
    (hblock : o1.blockNumber = o2.blockNumber)
    (hnet : o1.network = o2.network)
    (hparams : match o1.additionalParams, o2.additionalParams with
      | none, none => True
      | some p1, some p2 =>
          (p1.map Prod.fst).Perm (p2.map Prod.fst) ∧
          ∀ k ∈ p1.map Prod.fst, lookupParam p1 k = lookupParam p2 k
      | _, _ => False) :
    generateKey o1 = generateKey o2 := by
  obtain ⟨pre1, ad1, ch1, bl1, nw1, ap1⟩ := o1
  obtain ⟨pre2, ad2, ch2, bl2, nw2, ap2⟩ := o2
  dsimp only at hpre haddr hchain hblock hnet hparams
  subst hpre hchain hblock hnet
  unfold generateKey
  cases ad1 with
  | none =>
      cases ad2 with
      | some a2 => exact haddr.elim
      | none =>
          cases ap1 with
          | none =>
              cases ap2 with
              | some p2 => exact hparams.elim
              | none => rfl
          | some p1 =>
              cases ap2 with
              | none => exact hparams.elim
              | some p2 =>
                  obtain ⟨hperm, hlook⟩ := hparams
                  dsimp only
                  exact paramsSegment_congr hperm hlook _
  | some a1 =>
      cases ad2 with
      | none => exact haddr.elim
      | some a2 =>
          have hseg : ∀ K : String,
              (if a1 ≠ "" then K ++ "addr:" ++ lowerStr a1 ++ ":" else K) =
              (if a2 ≠ "" then K ++ "addr:" ++ lowerStr a2 ++ ":" else K) := by
            intro K
            by_cases he : a1 = ""
            · have he2 : a2 = "" := by
                apply (lowerStr_eq_empty_iff a2).mp
                rw [← haddr, he]
                rfl
              rw [if_neg (by simp [he]), if_neg (by simp [he2])]
            · have he2 : a2 ≠ "" := by
                intro h2
                apply he
                apply (lowerStr_eq_empty_iff a1).mp
                rw [haddr, h2]
                rfl
              rw [if_pos he, if_pos he2, haddr]
          cases ap1 with
          | none =>
              cases ap2 with
              | some p2 => exact hparams.elim
              | none =>
                  dsimp only
                  rw [hseg]
          | some p1 =>
              cases ap2 with
              | none => exact hparams.elim
              | some p2 =>
                  obtain ⟨hperm, hlook⟩ := hparams
                  dsimp only
                  rw [hseg]
                  exact paramsSegment_congr hperm hlook _

/-- Witness for C7: same logical descriptor with differently ordered
    additional parameters and differently cased addresses yields the same key. -/
theorem c7_witness :
    generateKey { prefixStr := "bal", address := some "0xAbC",
                  chainId := some 1, blockNumber := some 7,
                  network := some Network.ethereumMainnet,
                  additionalParams := some [("b", "2"), ("a", "1")] } =
    generateKey { prefixStr := "bal", address := some "0xabc",
                  chainId := some 1, blockNumber := some 7,
                  network := some Network.ethereumMainnet,
                  additionalParams := some [("a", "1"), ("b", "2")] } := by
  apply c7_generateKey_order_independent
  · rfl
  · decide
  · rfl
  · rfl
  · rfl
  · exact ⟨by decide, by decide⟩

/-- Adapter class variants shipped by the registry. -/
inductive AdapterVariant where
  | ethereumA
  | bscA
  | polygonA
deriving DecidableEq, Repr

/-- Live chain adapter: instance identity, class variant, constructor network
    argument and the bound transport handle. The EthereumAdapter built for
    the Arbitrum fallback carries ethereumMainnet as constructor argument. -/
structure Adapter where
  adapterId : Nat
  variant : AdapterVariant
  adapterNetwork : Network
  transportRef : Nat
deriving DecidableEq, Repr

/-- isCompatible of the shipped adapter variants: EthereumAdapter claims
    chain ids 1 and 11155111, BscAdapter claims 56, PolygonAdapter claims 137. -/
def isCompatible (a : Adapter) (chainId : Nat) : Bool :=
  match a.variant with
  | .ethereumA => chainId == 1 || chainId == 11155111
  | .bscA => chainId == 56
  | .polygonA => chainId == 137

/-- Adapter class chosen by the createAdapter switch for each network. -/
def variantOf : Network → AdapterVariant
  | .ethereumMainnet => .ethereumA
  | .ethereumSepolia => .ethereumA
  | .bscNet => .bscA
  | .polygonNet => .polygonA
  | .arbitrumNet => .ethereumA

/-- Constructor network argument passed by createAdapter; the Arbitrum case
    falls back to an EthereumAdapter built for ethereumMainnet. -/
def constructorNetwork : Network → Network
  | .arbitrumNet => .ethereumMainnet
  | n => n

/-- Chain ids of the NETWORK_CONFIGS table, in literal entry order. -/
def networkEntries : List (Network × Nat) :=
  [(.ethereumMainnet, 1), (.ethereumSepolia, 11155111), (.polygonNet, 137),
   (.bscNet, 56), (.arbitrumNet, 42161)]

/-- State of ChainAdapterRegistry: the network-keyed adapter map in insertion
    order, plus a counter modelling fresh object identities of constructions. -/
structure Registry where
  adapters : List (Network × Adapter)
  nextId : Nat
deriving DecidableEq, Repr

def emptyRegistry : Registry := { adapters := [], nextId := 0 }

/-- createAdapter of ChainAdapterRegistry: returns the existing adapter for
    the network if present, otherwise constructs the network-specific variant,
    stores it and returns it. The fire-and-forget asynchronous initialize call
    only verifies the transport and does not alter the registry map. -/
def createAdapter (n : Network) (transport : Nat) (r : Registry) : Adapter × Registry :=
  match mapGet n r.adapters with
  | some a => (a, r)
  | none =>
      let a : Adapter := { adapterId := r.nextId, variant := variantOf n,
                           adapterNetwork := constructorNetwork n,
                           transportRef := transport }
      (a, { adapters := mapSet n a r.adapters, nextId := r.nextId + 1 })

/-- getAdapter of ChainAdapterRegistry. -/
def getAdapter (n : Network) (transport : Nat) (r : Registry) : Adapter × Registry :=
  match mapGet n r.adapters with
  | some a => (a, r)
  | none => createAdapter n transport r

/-- findAdapterForChainId of ChainAdapterRegistry: scan the live adapters for
    a compatible one, else resolve the network by chain id from the static
    configuration table and delegate to createAdapter, else return null. -/
def findAdapterForChainId (chainId : Nat) (transport : Nat) (r : Registry) :
    Option Adapter × Registry :=
  match r.adapters.find? (fun p => isCompatible p.2 chainId) with
  | some p => (some p.2, r)
  | none =>
      match networkEntries.find? (fun nc => decide (nc.2 = chainId)) with
      | some nc =>
          let res := createAdapter nc.1 transport r
          (some res.1, res.2)
      | none => (none, r)

/-- removeAdapter of ChainAdapterRegistry; the disconnect call on the dropped
    adapter only clears its initialized flag, which is not tracked here. -/
def removeAdapter (n : Network) (r : Registry) : Registry :=
  match mapGet n r.adapters with
  | some _ => { r with adapters := mapDelete n r.adapters }
  | none => r

/-- clearAdapters of ChainAdapterRegistry. -/
def clearAdapters (r : Registry) : Registry := { r with adapters := [] }

/-- One registry operation, for quantifying over operation sequences. -/
inductive RegOp where
  | create (n : Network) (transport : Nat)
  | getA (n : Network) (transport : Nat)
  | find (chainId : Nat) (transport : Nat)
  | remove (n : Network)
  | clearAll
deriving DecidableEq, Repr

def applyRegOp (r : Registry) : RegOp → Registry
  | .create n t => (createAdapter n t r).2
  | .getA n t => (getAdapter n t r).2
  | .find c t => (findAdapterForChainId c t r).2
  | .remove n => removeAdapter n r
  | .clearAll => clearAdapters r

def runRegOps (ops : List RegOp) : Registry :=
  ops.foldl applyRegOp emptyRegistry

/-- Registry invariant: every stored adapter has the variant its key network
    dictates, and network keys are unique. -/
def regInv (r : Registry) : Prop :=
  (∀ p ∈ r.adapters, p.2.variant = variantOf p.1) ∧ (r.adapters.map Prod.fst).Nodup

theorem not_mem_keys_of_mapGet_none [DecidableEq κ] {k : κ} {l : List (κ × β)}
    (h : mapGet k l = none) : k ∉ l.map Prod.fst := by
  intro hmem
  obtain ⟨x, hx, hfst⟩ := List.mem_map.mp hmem
  unfold mapGet at h
  have hf : List.find? (fun p => decide (p.1 = k)) l = none := by
    cases hfind : List.find? (fun p => decide (p.1 = k)) l with
    | none => rfl
    | some y => rw [hfind] at h; simp at h
  rw [List.find?_eq_none] at hf
  exact hf x hx (by simp [hfst])

theorem createAdapter_cases (n : Network) (t : Nat) (r : Registry) :
    (createAdapter n t r).2 = r ∨
    (mapGet n r.adapters = none ∧
      (createAdapter n t r).2 =
        { adapters := r.adapters ++
            [(n, { adapterId := r.nextId, variant := variantOf n,
                   adapterNetwork := constructorNetwork n, transportRef := t })],
          nextId := r.nextId + 1 }) := by
  unfold createAdapter
  cases hget : mapGet n r.adapters with
  | some a => exact Or.inl rfl
  | none =>
      refine Or.inr ⟨rfl, ?_⟩
      dsimp only
      rw [mapSet_of_get_none hget]

theorem createAdapter_regInv (n : Network) (t : Nat) {r : Registry}
    (h : regInv r) : regInv (createAdapter n t r).2 := by
  rcases createAdapter_cases n t r with heq | ⟨hget, heq⟩
  · rw [heq]; exact h
  · rw [heq]
    obtain ⟨hvar, hnd⟩ := h
    constructor
    · intro p hp
      rcases List.mem_append.mp hp with hold | hnew
      · exact hvar p hold
      · simp only [List.mem_singleton] at hnew
        rw [hnew]
    · simp only [List.map_append, List.map_cons, List.map_nil]
      rw [List.nodup_append]
      refine ⟨hnd, List.nodup_singleton n, ?_⟩
      intro x hx hx'
      simp only [List.mem_singleton] at hx'
      rw [hx'] at hx
      exact not_mem_keys_of_mapGet_none hget hx

theorem applyRegOp_regInv {r : Registry} (h : regInv r) (op : RegOp) :
    regInv (applyRegOp r op) := by
  cases op with
  | create n t =>
      simp only [applyRegOp]
      exact createAdapter_regInv n t h
  | getA n t =>
      simp only [applyRegOp, getAdapter]
      cases hget : mapGet n r.adapters with
      | some a => exact h
      | none => exact createAdapter_regInv n t h
  | find c t =>
      simp only [applyRegOp, findAdapterForChainId]
      cases hscan : r.adapters.find? (fun p => isCompatible p.2 c) with
      | some p => exact h
      | none =>
          cases hcfg : networkEntries.find? (fun nc => decide (nc.2 = c)) with
          | some nc => exact createAdapter_regInv nc.1 t h
          | none => exact h
  | remove n =>
      simp only [applyRegOp, removeAdapter]
      cases hget : mapGet n r.adapters with
      | some a =>
          obtain ⟨hvar, hnd⟩ := h
          constructor
          · intro p hp
            exact hvar p (List.mem_of_mem_filter hp)
          · exact List.Nodup.sublist (List.Sublist.map Prod.fst (List.filter_sublist _)) hnd
      | none => exact h
  | clearAll =>
      simp only [applyRegOp, clearAdapters]
      exact ⟨by simp, by simp⟩

theorem runRegOps_regInv (ops : List RegOp) : regInv (runRegOps ops) := by
  have hgen : ∀ r, regInv r → regInv (ops.foldl applyRegOp r) := by
    induction ops with
    | nil => intro r h; exact h
    | cons op rest ih =>
        intro r h
        exact ih (applyRegOp r op) (applyRegOp_regInv h op)
  exact hgen emptyRegistry ⟨by intro p hp; simp [emptyRegistry] at hp, by simp [emptyRegistry]⟩

theorem variantOf_eq_bsc {n : Network} (h : variantOf n = .bscA) : n = .bscNet := by
  cases n <;> first | rfl | exact absurd h (by decide)

theorem variantOf_eq_polygon {n : Network} (h : variantOf n = .polygonA) :
    n = .polygonNet := by
  cases n <;> first | rfl | exact absurd h (by decide)

/-- C3 counterexample: creating the Ethereum mainnet and Sepolia adapters
    leaves the registry with two simultaneously live adapters under distinct
    network keys whose compatibility predicates both accept chain id 1. -/
theorem c3_counterexample :
    ∃ p q : Network × Adapter,
      p ∈ (runRegOps [RegOp.create .ethereumMainnet 0,
                      RegOp.create .ethereumSepolia 0]).adapters ∧
      q ∈ (runRegOps [RegOp.create .ethereumMainnet 0,
                      RegOp.create .ethereumSepolia 0]).adapters ∧
      p.1 ≠ q.1 ∧
      isCompatible p.2 1 = true ∧ isCompatible q.2 1 = true := by
  refine ⟨(.ethereumMainnet,
            { adapterId := 0, variant := .ethereumA,
              adapterNetwork := .ethereumMainnet, transportRef := 0 }),
          (.ethereumSepolia,
            { adapterId := 1, variant := .ethereumA,
              adapterNetwork := .ethereumSepolia, transportRef := 0 }),
          ?_, ?_, ?_, ?_, ?_⟩ <;> decide

/-- C3 amended: after any sequence of registry operations, two distinct live
    adapters can both claim compatibility with a common chain id only when
    both are Ethereum-family adapters (the mainnet, Sepolia and Arbitrum
    fallback instances) and the chain id is 1 or 11155111; adapters of the
    BSC and Polygon variants never share a claimed chain id with a distinct
    live adapter. -/
theorem c3_overlap_only_ethereum (ops : List RegOp) (p q : Network × Adapter)
    (c : Nat)
    (hp : p ∈ (runRegOps ops).adapters) (hq : q ∈ (runRegOps ops).adapters)
    (hne : p.1 ≠ q.1)
    (hpc : isCompatible p.2 c = true) (hqc : isCompatible q.2 c = true) :
    (c = 1 ∨ c = 11155111) ∧ p.2.variant = .ethereumA ∧
      q.2.variant = .ethereumA := by
  obtain ⟨hvar, _⟩ := runRegOps_regInv ops
  have hpv := hvar p hp
  have hqv := hvar q hq
  rcases hv1 : p.2.variant with _ | _ | _ <;> rcases hv2 : q.2.variant with _ | _ | _ <;>
    simp only [isCompatible, hv1, hv2, beq_iff_eq, Bool.or_eq_true] at hpc hqc
  · exact ⟨hpc, rfl, rfl⟩
  · omega
  · omega
  · omega
  · exact absurd ((variantOf_eq_bsc (hpv.symm.trans hv1)).trans
      (variantOf_eq_bsc (hqv.symm.trans hv2)).symm) hne
  · omega
  · omega
  · omega
  · exact absurd ((variantOf_eq_polygon (hpv.symm.trans hv1)).trans
      (variantOf_eq_polygon (hqv.symm.trans hv2)).symm) hne

/-- Witness for the amended C3 at a concrete operation sequence: the two
    Ethereum-family adapters overlapping on chain id 1. -/
theorem c3_witness :
    ((1 : Nat) = 1 ∨ (1 : Nat) = 11155111) ∧
      ({ adapterId := 0, variant := .ethereumA,
         adapterNetwork := .ethereumMainnet, transportRef := 0 } : Adapter).variant
        = .ethereumA ∧
      ({ adapterId := 1, variant := .ethereumA,
         adapterNetwork := .ethereumSepolia, transportRef := 0 } : Adapter).variant
        = .ethereumA :=
  c3_overlap_only_ethereum
    [RegOp.create .ethereumMainnet 0, RegOp.create .ethereumSepolia 0]
    (.ethereumMainnet,
      { adapterId := 0, variant := .ethereumA,
        adapterNetwork := .ethereumMainnet, transportRef := 0 })
    (.ethereumSepolia,
      { adapterId := 1, variant := .ethereumA,
        adapterNetwork := .ethereumSepolia, transportRef := 0 })
    1 (by decide) (by decide) (by decide) (by decide) (by decide)

/-- C8: findAdapterForChainId is idempotent per chain id: a second call with
    the same chain id returns the identical result on the unchanged registry
    (the same adapter instance, no second instantiation), and createAdapter
    on a network that already has an adapter returns the existing instance
    with the registry unchanged. -/
theorem c8_registry_idempotent :
    (∀ (r : Registry) (c t : Nat),
      findAdapterForChainId c t (findAdapterForChainId c t r).2 =
        findAdapterForChainId c t r)
  ∧ (∀ (r : Registry) (n : Network) (t : Nat) (a : Adapter),
      mapGet n r.adapters = some a → createAdapter n t r = (a, r)) := by
  constructor
  · intro r c t
    cases hscan : r.adapters.find? (fun p => isCompatible p.2 c) with
    | some p =>
        simp only [findAdapterForChainId, hscan]
    | none =>
        cases hcfg : networkEntries.find? (fun nc => decide (nc.2 = c)) with
        | none =>
            simp only [findAdapterForChainId, hscan, hcfg]
        | some nc =>
            cases hget : mapGet nc.1 r.adapters with
            | some a =>
                simp only [findAdapterForChainId, hscan, hcfg, createAdapter, hget]
            | none =>
                have hmem := List.mem_of_find?_eq_some hcfg
                have hpred := List.find?_some hcfg
                simp only [decide_eq_true_eq] at hpred
                have happ := mapSet_of_get_none hget
                  ({ adapterId := r.nextId, variant := variantOf nc.1,
                     adapterNetwork := constructorNetwork nc.1,
                     transportRef := t } : Adapter)
                have hfirst : findAdapterForChainId c t r =
                    (some { adapterId := r.nextId, variant := variantOf nc.1,
                            adapterNetwork := constructorNetwork nc.1,
                            transportRef := t },
                     { adapters := r.adapters ++
                         [(nc.1, { adapterId := r.nextId, variant := variantOf nc.1,
                                   adapterNetwork := constructorNetwork nc.1,
                                   transportRef := t })],
                       nextId := r.nextId + 1 }) := by
                  simp only [findAdapterForChainId, hscan, hcfg, createAdapter, hget]
                  rw [happ]
                rw [hfirst]
                fin_cases hmem
                · subst hpred
                  have hfind2 : (r.adapters ++
                      [(Network.ethereumMainnet,
                        ({ adapterId := r.nextId, variant := variantOf .ethereumMainnet,
                           adapterNetwork := constructorNetwork .ethereumMainnet,
                           transportRef := t } : Adapter))]).find?
                        (fun p => isCompatible p.2 1) =
                      some (Network.ethereumMainnet,
                        { adapterId := r.nextId, variant := variantOf .ethereumMainnet,
                          adapterNetwork := constructorNetwork .ethereumMainnet,
                          transportRef := t }) := by
                    rw [List.find?_append, hscan]
                    rfl
                  simp only [findAdapterForChainId, hfind2]
                · subst hpred
                  have hfind2 : (r.adapters ++
                      [(Network.ethereumSepolia,
                        ({ adapterId := r.nextId, variant := variantOf .ethereumSepolia,
                           adapterNetwork := constructorNetwork .ethereumSepolia,
                           transportRef := t } : Adapter))]).find?
                        (fun p => isCompatible p.2 11155111) =
                      some (Network.ethereumSepolia,
                        { adapterId := r.nextId, variant := variantOf .ethereumSepolia,
                          adapterNetwork := constructorNetwork .ethereumSepolia,
                          transportRef := t }) := by
                    rw [List.find?_append, hscan]
                    rfl
                  simp only [findAdapterForChainId, hfind2]
                · subst hpred
                  have hfind2 : (r.adapters ++
                      [(Network.polygonNet,
                        ({ adapterId := r.nextId, variant := variantOf .polygonNet,
                           adapterNetwork := constructorNetwork .polygonNet,
                           transportRef := t } : Adapter))]).find?
                        (fun p => isCompatible p.2 137) =
                      some (Network.polygonNet,
                        { adapterId := r.nextId, variant := variantOf .polygonNet,
                          adapterNetwork := constructorNetwork .polygonNet,
                          transportRef := t }) := by
                    rw [List.find?_append, hscan]
                    rfl
                  simp only [findAdapterForChainId, hfind2]
                · subst hpred
                  have hfind2 : (r.adapters ++
                      [(Network.bscNet,
                        ({ adapterId := r.nextId, variant := variantOf .bscNet,
                           adapterNetwork := constructorNetwork .bscNet,
                           transportRef := t } : Adapter))]).find?
                        (fun p => isCompatible p.2 56) =
                      some (Network.bscNet,
                        { adapterId := r.nextId, variant := variantOf .bscNet,
                          adapterNetwork := constructorNetwork .bscNet,
                          transportRef := t }) := by
                    rw [List.find?_append, hscan]
                    rfl
                  simp only [findAdapterForChainId, hfind2]
                · subst hpred
                  have hfind2 : (r.adapters ++
                      [(Network.arbitrumNet,
                        ({ adapterId := r.nextId, variant := variantOf .arbitrumNet,
                           adapterNetwork := constructorNetwork .arbitrumNet,
                           transportRef := t } : Adapter))]).find?
                        (fun p => isCompatible p.2 42161) = none := by
                    rw [List.find?_append, hscan]
                    rfl
                  have hget2 : mapGet Network.arbitrumNet (r.adapters ++
                      [(Network.arbitrumNet,
                        ({ adapterId := r.nextId, variant := variantOf .arbitrumNet,
                           adapterNetwork := constructorNetwork .arbitrumNet,
                           transportRef := t } : Adapter))]) =
                      some { adapterId := r.nextId, variant := variantOf .arbitrumNet,
                             adapterNetwork := constructorNetwork .arbitrumNet,
                             transportRef := t } := by
                    rw [← happ]
                    exact mapGet_mapSet_self _ _ _
                  have hcfg2 : networkEntries.find? (fun nc => decide (nc.2 = 42161)) =
                      some (Network.arbitrumNet, 42161) := by rfl
                  simp only [findAdapterForChainId, hfind2, hcfg2, createAdapter, hget2]
  · intro r n t a h
    unfold createAdapter
    rw [h]

/-- Registry holding one BSC adapter, for the C8 witness. -/
def c8demoAdapter : Adapter :=
  { adapterId := 0, variant := .bscA, adapterNetwork := .bscNet, transportRef := 7 }

def c8demoRegistry : Registry :=
  { adapters := [(.bscNet, c8demoAdapter)], nextId := 1 }

/-- Witness for C8: repeated lookup of chain id 1 from the empty registry is
    stable, and createAdapter for BSC on a registry already holding the BSC
    adapter returns that instance and leaves the registry unchanged. -/
theorem c8_witness :
    findAdapterForChainId 1 0 (findAdapterForChainId 1 0 emptyRegistry).2 =
      findAdapterForChainId 1 0 emptyRegistry ∧
    createAdapter .bscNet 7 c8demoRegistry = (c8demoAdapter, c8demoRegistry) := by
  constructor
  · exact c8_registry_idempotent.1 emptyRegistry 1 0
  · exact c8_registry_idempotent.2 c8demoRegistry .bscNet 7 c8demoAdapter (by decide)

/-- ConnectionStatus enum of types.ts. -/
inductive ConnStatus where
  | disconnected
  | connecting
  | connected
  | errored
deriving DecidableEq, Repr

/-- The two provider kinds held by the service: BrowserProvider or a
    JsonRpcProvider bound to a network. -/
inductive ProviderKind where
  | browser
  | rpc (net : Network)
deriving DecidableEq, Repr

/-- ConnectionState of types.ts; the ethers Network object is represented by
    its chain id and the Error object by its message. -/
structure ConnState where
  status : ConnStatus
  account : Option String
  chainId : Option Nat
  network : Option Nat
  provider : Option ProviderKind
  error : Option String
deriving DecidableEq, Repr

/-- Initial ConnectionState assigned at service construction. -/
def initialConnState : ConnState :=
  { status := .disconnected, account := none, chainId := none,
    network := none, provider := none, error := none }

/-- Partial ConnectionState update as passed to updateConnectionState; a none
    field is absent from the partial object and keeps the previous value. -/
structure ConnUpdate where
  status : Option ConnStatus := none
  account : Option (Option String) := none
  chainId : Option (Option Nat) := none
  network : Option (Option Nat) := none
  provider : Option (Option ProviderKind) := none
  error : Option (Option String) := none

/-- Spread merge performed by updateConnectionState. -/
def applyUpdate (cs : ConnState) (u : ConnUpdate) : ConnState :=
  { status := u.status.getD cs.status,
    account := u.account.getD cs.account,
    chainId := u.chainId.getD cs.chainId,
    network := u.network.getD cs.network,
    provider := u.provider.getD cs.provider,
    error := u.error.getD cs.error }

/-- Connection listener: a function identity plus the condition under which
    its body throws when invoked with a given state. -/
structure Listener where
  lid : Nat
  throwsOn : ConnState → Bool

/-- Invocation of one listener: the observable invocation record paired with
    the outcome of its body, error when the listener throws. -/
def invokeListener (l : Listener) (cs : ConnState) :
    (Nat × ConnState) × Except String Unit :=
  ((l.lid, cs),
   if l.throwsOn cs then Except.error "listener error" else Except.ok ())

/-- One iteration of the notification loop: the listener runs inside its own
    try/catch, a thrown error is logged and iteration continues. -/
def notifyStep (cs : ConnState) (acc : List (Nat × ConnState) × List String)
    (l : Listener) : List (Nat × ConnState) × List String :=
  match invokeListener l cs with
  | (ev, Except.ok ()) => (acc.1 ++ [ev], acc.2)
  | (ev, Except.error e) => (acc.1 ++ [ev], acc.2 ++ [e])

/-- Notification loop of updateConnectionState over all listeners. -/
def notifyAll (ls : List Listener) (cs : ConnState) :
    List (Nat × ConnState) × List String :=
  ls.foldl (notifyStep cs) ([], [])

/-- State of BlockchainProviderService together with the external wallet
    object: the private provider field, the connection state, the listener
    array, the active adapter, the shared registry, the wallet object's
    installed event listeners (event name paired with the identity of the
    registered function object), a counter allocating identities for the
    function objects produced by bind, and the logs of listener invocations
    and of errors swallowed by the notification loop. -/
structure ProviderState where
  svcProvider : Option ProviderKind
  connState : ConnState
  listeners : List Listener
  activeAdapter : Option Adapter
  registry : Registry
  walletListeners : List (String × Nat)
  nextFnId : Nat
  invocationLog : List (Nat × ConnState)
  listenerErrors : List String

/-- Service state at construction. -/
def initialProviderState : ProviderState :=
  { svcProvider := none, connState := initialConnState, listeners := [],
    activeAdapter := none, registry := emptyRegistry, walletListeners := [],
    nextFnId := 0, invocationLog := [], listenerErrors := [] }

/-- updateConnectionState: merge the partial update into the connection state
    first, then notify every listener with the new state. -/
def updateConn (s : ProviderState) (u : ConnUpdate) : ProviderState :=
  let cs := applyUpdate s.connState u
  let res := notifyAll s.listeners cs
  { s with connState := cs,
           invocationLog := s.invocationLog ++ res.1,
           listenerErrors := s.listenerErrors ++ res.2 }

/-- addConnectionListener: push the listener, then invoke it immediately with
    the current state; this immediate call is not wrapped in a try/catch, so
    the returned flag reports whether the call threw out of the method. -/
def addConnectionListener (l : Listener) (s : ProviderState) :
    ProviderState × Bool :=
  let s1 := { s with listeners := s.listeners ++ [l] }
  ({ s1 with invocationLog := s1.invocationLog ++ [(l.lid, s1.connState)] },
   l.throwsOn s1.connState)

/-- removeConnectionListener: filter the listener array by function identity. -/
def removeConnectionListener (l : Listener) (s : ProviderState) : ProviderState :=
  { s with listeners := s.listeners.filter (fun x => decide (x.lid ≠ l.lid)) }

/-- setupEventListeners: ethereum.on is called with three freshly bound
    handler functions, appended to the wallet listener table. -/
def setupEventListeners (s : ProviderState) : ProviderState :=
  { s with
      walletListeners := s.walletListeners ++
        [("accountsChanged", s.nextFnId), ("chainChanged", s.nextFnId + 1),
         ("disconnect", s.nextFnId + 2)],
      nextFnId := s.nextFnId + 3 }

/-- removeEventListeners: ethereum.removeListener is called with three new
    bind results (every bind call allocates a fresh function identity), so a
    removal only drops a wallet listener whose registered function identity
    equals the freshly allocated one. -/
def removeEventListeners (s : ProviderState) : ProviderState :=
  let f0 := s.nextFnId
  let f1 := s.nextFnId + 1
  let f2 := s.nextFnId + 2
  let ls := s.walletListeners.filter
    (fun p => decide (¬(p.1 = "accountsChanged" ∧ p.2 = f0)))
  let ls := ls.filter (fun p => decide (¬(p.1 = "chainChanged" ∧ p.2 = f1)))
  let ls := ls.filter (fun p => decide (¬(p.1 = "disconnect" ∧ p.2 = f2)))
  { s with walletListeners := ls, nextFnId := s.nextFnId + 3 }

/-- Wallet RPC error carrying the numeric code inspected by switchNetwork. -/
structure WalletErr where
  code : Option Nat
  msg : String
deriving DecidableEq, Repr

/-- Outcomes of the external wallet and transport interactions during one
    provider-service call. -/
structure ProviderEnv where
  walletPresent : Bool
  accountsResult : Except String (List String)
  browserChainId : Except String Nat
  signerAddress : Except String String
  rpcChainId : Network → Except String Nat
  switchResult : Except WalletErr Unit
  addChainResult : Except WalletErr Unit
  retrySwitchResult : Except WalletErr Unit

/-- connectBrowserWallet of BlockchainProviderService under the given
    environment outcomes: publishes Connecting, resolves the wallet, the
    accounts, the network and the signer, installs the provider, the adapter
    and the wallet event listeners and publishes Connected; every failure is
    caught and published as an Error state. -/
def connectBrowserWallet (env : ProviderEnv) (s : ProviderState) : ProviderState :=
  let s := updateConn s { status := some .connecting, error := some none }
  if env.walletPresent = false then
    updateConn s { status := some .errored,
                   error := some (some "No browser wallet detected") }
  else
    match env.accountsResult with
    | .error msg =>
        updateConn s { status := some .errored, error := some (some msg) }
    | .ok accounts =>
        if accounts.isEmpty then
          updateConn s { status := some .errored,
                         error := some (some "No accounts found") }
        else
          match env.browserChainId, env.signerAddress with
          | .ok cid, .ok addr =>
              let s := { s with svcProvider := some .browser }
              let res := findAdapterForChainId cid 0 s.registry
              let s := { s with activeAdapter := res.1, registry := res.2 }
              let s := updateConn s
                { status := some .connected, account := some (some addr),
                  chainId := some (some cid), network := some (some cid),
                  provider := some (some .browser), error := some none }
              setupEventListeners s
          | .error msg, _ =>
              updateConn s { status := some .errored, error := some (some msg) }
          | .ok _, .error msg =>
              updateConn s { status := some .errored, error := some (some msg) }

/-- connectRpcProvider of BlockchainProviderService: publishes Connecting,
    races getNetwork against the timeout, installs the RPC provider and an
    adapter via createAdapter and publishes Connected with a null account;
    the timeout and transport failures are caught and published as Error. -/
def connectRpcProvider (env : ProviderEnv) (net : Network) (s : ProviderState) :
    ProviderState :=
  let s := updateConn s { status := some .connecting, error := some none }
  match env.rpcChainId net with
  | .error msg =>
      updateConn s { status := some .errored,
                     error := some (some ("Failed to connect: " ++ msg)) }
  | .ok cid =>
      let s := { s with svcProvider := some (.rpc net) }
      let res := createAdapter net 0 s.registry
      let s := { s with activeAdapter := some res.1, registry := res.2 }
      updateConn s
        { status := some .connected, account := some none,
          chainId := some (some cid), network := some (some cid),
          provider := some (some (.rpc net)), error := some none }

/-- disconnect of BlockchainProviderService: a no-op when the private
    provider field is null; otherwise removes the wallet listeners when the
    wallet is present and the provider is a BrowserProvider, disconnects and
    drops the adapter, clears the provider field and publishes the fully
    reset Disconnected state. -/
def disconnectSvc (env : ProviderEnv) (s : ProviderState) : ProviderState :=
  match s.svcProvider with
  | none => s
  | some pk =>
      let s :=
        if env.walletPresent = true ∧ pk = .browser then removeEventListeners s
        else s
      let s := { s with activeAdapter := none }
      let s := { s with svcProvider := none }
      updateConn s
        { status := some .disconnected, account := some none,
          chainId := some none, network := some none,
          provider := some none, error := some none }

/-- Body of switchNetwork up to the outer try/catch; an Except.error value
    models a reachable throw site, and every such site precedes any state
    mutation of the call. -/
def switchNetworkBody (env : ProviderEnv) (net : Network) (s : ProviderState) :
    Except String (Bool × ProviderState) :=
  if s.connState.status ≠ ConnStatus.connected then
    Except.ok (true, connectRpcProvider env net s)
  else
    match s.svcProvider with
    | some .browser =>
        if env.walletPresent = false then
          Except.error "Browser provider not available"
        else
          match env.switchResult with
          | .ok () => Except.ok (true, s)
          | .error e =>
              if e.code = some 4902 then
                match env.addChainResult with
                | .ok () =>
                    match env.retrySwitchResult with
                    | .ok () => Except.ok (true, s)
                    | .error e2 =>
                        Except.error ("Failed to add network: " ++ e2.msg)
                | .error e2 => Except.error ("Failed to add network: " ++ e2.msg)
              else Except.error e.msg
    | _ => Except.ok (true, connectRpcProvider env net s)

/-- switchNetwork of BlockchainProviderService: the outer try/catch logs any
    thrown error and returns false; since every reachable throw happens
    before any state mutation, the state at the catch is the entry state. -/
def switchNetwork (env : ProviderEnv) (net : Network) (s : ProviderState) :
    Bool × ProviderState :=
  match switchNetworkBody env net s with
  | .ok res => res
  | .error _ => (false, s)

theorem switchNetworkBody_cases (env : ProviderEnv) (net : Network)
    (s : ProviderState) :
    (∃ s', switchNetworkBody env net s = Except.ok (true, s')) ∨
    (∃ msg, switchNetworkBody env net s = Except.error msg) := by
  unfold switchNetworkBody
  by_cases h1 : s.connState.status ≠ ConnStatus.connected
  · rw [if_pos h1]
    exact Or.inl ⟨_, rfl⟩
  · rw [if_neg h1]
    cases hp : s.svcProvider with
    | none => exact Or.inl ⟨_, rfl⟩
    | some pk =>
        cases pk with
        | rpc n => exact Or.inl ⟨_, rfl⟩
        | browser =>
            dsimp only
            by_cases hw : env.walletPresent = false
            · rw [if_pos hw]
              exact Or.inr ⟨_, rfl⟩
            · rw [if_neg hw]
              cases hs : env.switchResult with
              | ok u => exact Or.inl ⟨_, rfl⟩
              | error e =>
                  dsimp only
                  by_cases hc : e.code = some 4902
                  · rw [if_pos hc]
                    cases ha : env.addChainResult with
                    | ok u =>
                        cases hr : env.retrySwitchResult with
                        | ok u2 => exact Or.inl ⟨_, rfl⟩
                        | error e2 => exact Or.inr ⟨_, rfl⟩
                    | error e2 => exact Or.inr ⟨_, rfl⟩
                  · rw [if_neg hc]
                    exact Or.inr ⟨_, rfl⟩

/-- C4: switchNetwork always yields a boolean (its embedding is total through
    the outer catch); whenever it returns false the whole service state, and
    with it the observable ConnectionState, equals the state before the call;
    and on a wallet connection to an unregistered chain (switch rejected with
    code 4902) whose add-chain step fails, the call returns false with the
    state unchanged. -/
theorem c4_switchNetwork_failure_leaves_state (env : ProviderEnv) (net : Network)
    (s : ProviderState) :
    ((switchNetwork env net s).1 = false → (switchNetwork env net s).2 = s)
  ∧ (∀ e e2, s.connState.status = ConnStatus.connected →
      s.svcProvider = some ProviderKind.browser →
      env.walletPresent = true →
      env.switchResult = Except.error e → e.code = some 4902 →
      env.addChainResult = Except.error e2 →
      switchNetwork env net s = (false, s)) := by
  constructor
  · intro hfalse
    rcases switchNetworkBody_cases env net s with ⟨s', hok⟩ | ⟨msg, herr⟩
    · unfold switchNetwork at hfalse
      rw [hok] at hfalse
      simp at hfalse
    · unfold switchNetwork
      rw [herr]
  · intro e e2 hst hpv hw hs hc ha
    have h1 : ¬ (s.connState.status ≠ ConnStatus.connected) := by simp [hst]
    have h2 : ¬ (env.walletPresent = false) := by simp [hw]
    unfold switchNetwork switchNetworkBody
    rw [if_neg h1, hpv]
    dsimp only
    rw [if_neg h2, hs]
    dsimp only
    rw [if_pos hc, ha]

/-- Wallet-connected service state, for the C4 witness. -/
def c4demoState : ProviderState :=
  { svcProvider := some .browser,
    connState := { status := .connected, account := some "0xabc",
                   chainId := some 1, network := some 1,
                   provider := some .browser, error := none },
    listeners := [], activeAdapter := none, registry := emptyRegistry,
    walletListeners := [("accountsChanged", 0), ("chainChanged", 1),
                        ("disconnect", 2)],
    nextFnId := 3, invocationLog := [], listenerErrors := [] }

/-- Environment where the in-wallet switch is rejected with code 4902 and the
    subsequent add-chain request also fails. -/
def c4demoEnv : ProviderEnv :=
  { walletPresent := true, accountsResult := .ok ["0xabc"],
    browserChainId := .ok 1, signerAddress := .ok "0xabc",
    rpcChainId := fun _ => .ok 1,
    switchResult := .error { code := some 4902, msg := "unknown chain" },
    addChainResult := .error { code := none, msg := "user rejected add" },
    retrySwitchResult := .ok () }

/-- Witness for C4: on a wallet connection whose switch is rejected with code
    4902 and whose add-chain step fails, switchNetwork returns false and the
    state is untouched. -/
theorem c4_witness :
    switchNetwork c4demoEnv Network.polygonNet c4demoState = (false, c4demoState) :=
  (c4_switchNetwork_failure_leaves_state c4demoEnv Network.polygonNet c4demoState).2
    { code := some 4902, msg := "unknown chain" }
    { code := none, msg := "user rejected add" }
    rfl rfl rfl rfl rfl rfl

/-- Environment of a successful wallet connection followed by a disconnect. -/
def c2okEnv : ProviderEnv :=
  { walletPresent := true, accountsResult := .ok ["0xabc"],
    browserChainId := .ok 1, signerAddress := .ok "0xabc",
    rpcChainId := fun _ => .ok 1, switchResult := .ok (),
    addChainResult := .ok (), retrySwitchResult := .ok () }

/-- Environment with no injected wallet, so connectBrowserWallet fails. -/
def c2failEnv : ProviderEnv :=
  { walletPresent := false, accountsResult := .error "no wallet",
    browserChainId := .error "no wallet", signerAddress := .error "no wallet",
    rpcChainId := fun _ => .error "no wallet", switchResult := .ok (),
    addChainResult := .ok (), retrySwitchResult := .ok () }

/-- C2 evaluation: after a successful connectBrowserWallet and a disconnect,
    the three wallet event listeners installed at connect are still attached
    (removeEventListeners passed freshly bound functions with identities 3, 4
    and 5 to removeListener, which match none of the installed identities 0,
    1 and 2), even though the ConnectionState itself is reset; and after a
    failed connect, disconnect is a no-op that leaves the Error state in
    place instead of resetting it. -/
theorem c2_disconnect_bug_eval :
    (disconnectSvc c2okEnv (connectBrowserWallet c2okEnv initialProviderState)).walletListeners
      = [("accountsChanged", 0), ("chainChanged", 1), ("disconnect", 2)]
  ∧ (disconnectSvc c2okEnv (connectBrowserWallet c2okEnv initialProviderState)).connState
      = initialConnState
  ∧ (disconnectSvc c2failEnv (connectBrowserWallet c2failEnv initialProviderState)).connState.status
      = ConnStatus.errored
  ∧ (disconnectSvc c2failEnv (connectBrowserWallet c2failEnv initialProviderState)).connState.error
      ≠ none := by
  refine ⟨rfl, rfl, rfl, ?_⟩
  intro h
  exact Option.noConfusion h

theorem notifyStep_fst (cs : ConnState) (acc : List (Nat × ConnState) × List String)
    (l : Listener) : (notifyStep cs acc l).1 = acc.1 ++ [(l.lid, cs)] := by
  unfold notifyStep invokeListener
  by_cases ht : l.throwsOn cs = true
  · rw [if_pos ht]
  · rw [if_neg ht]

theorem notifyAll_fst (ls : List Listener) (cs : ConnState) :
    (notifyAll ls cs).1 = ls.map (fun x => (x.lid, cs)) := by
  have hgen : ∀ acc : List (Nat × ConnState) × List String,
      (ls.foldl (notifyStep cs) acc).1 = acc.1 ++ ls.map (fun x => (x.lid, cs)) := by
    induction ls with
    | nil => intro acc; simp
    | cons x xs ih =>
        intro acc
        simp only [List.foldl_cons, List.map_cons]
        rw [ih (notifyStep cs acc x), notifyStep_fst]
        simp
  simpa [notifyAll] using hgen ([], [])

/-- C9: addConnectionListener registers the listener and invokes it exactly
    once, immediately, with the current state (the invocation is recorded
    even when the listener throws, and the listener stays registered); and
    updateConnectionState first installs the merged new state and then
    invokes every registered listener exactly once with that new state, a
    throwing listener never suppressing the invocation of later ones since
    every invocation of the notification loop runs in its own try/catch. -/
theorem c9_listener_notification (s : ProviderState) (l : Listener)
    (u : ConnUpdate) :
    ((addConnectionListener l s).1.listeners = s.listeners ++ [l]
      ∧ (addConnectionListener l s).1.invocationLog =
          s.invocationLog ++ [(l.lid, s.connState)])
  ∧ ((updateConn s u).connState = applyUpdate s.connState u
      ∧ (updateConn s u).invocationLog =
          s.invocationLog ++
            s.listeners.map (fun x => (x.lid, applyUpdate s.connState u))) := by
  refine ⟨⟨rfl, rfl⟩, rfl, ?_⟩
  simp only [updateConn]
  rw [notifyAll_fst]

end SberHack
